import Mathlib

set_option maxRecDepth 8192

/-!
Verification of the string-type command execution layer of pikiwidb
(src/src/cmd_kv.cc).  Keys, values and argument frames are byte strings,
modelled as lists of byte values.  The keyspace service and the codec are
external collaborators of this layer (spec sections 3 and 6); where their
code is not part of the sources under verification they are modelled from
the specification, as stated in each doc comment.
-/

/-- Byte strings: C++ std::string viewed as a list of byte values. -/
abbrev ByteStr := List Nat

/-- ASCII helper: turns a list of characters into their byte values. -/
def ascii (l : List Char) : ByteStr := l.map Char.toNat

/-- Value type tags of the keyspace (kPTypeString and the other types a key
may hold; this layer only ever creates String-typed values, spec section 3). -/
inductive PType where
  | string
  | hash
  | plist
  | pset
  | zset
deriving DecidableEq

/-- Payload of a keyspace value together with its encoding discriminant:
kPEncodeInt holds a signed 64-bit integer, kPEncodeRaw an opaque byte string.
Spec section 3 invariant 1 (encoding and payload always consistent) is built
into the sum type. -/
inductive PValue where
  | int (n : Int)
  | raw (b : ByteStr)
deriving DecidableEq

/-- A keyspace object: type tag plus encoded payload (PObject in the source). -/
structure PObject where
  ptype : PType
  value : PValue
deriving DecidableEq

/-- Error codes of the keyspace service (PError in the source). -/
inductive PError where
  | ok
  | notExist
  | type
  | param
deriving DecidableEq

/-- Reply result codes (CmdRes::CmdRet in the source): kNone, kOK, kSyntaxErr,
kWrongNum, kInvalidInt, kInvalidFloat, kErrOther. -/
inductive CmdRes where
  | noRes
  | ok
  | synErr
  | wrongNum
  | invalidInt
  | invalidFloat
  | errOther
deriving DecidableEq

/-- RESP-shaped reply fragments appended through the ReplyBuilder port
(spec section 6): AppendString, AppendInteger, AppendArrayLen,
AppendStringLen, AppendContent. -/
inductive ReplyFrag where
  | str (s : ByteStr)
  | int (n : Int)
  | arrayLen (n : Int)
  | strLen (n : Int)
  | content (s : ByteStr)
deriving DecidableEq

/-- The keyspace: a mapping from byte keys to tagged values plus an
absolute-millisecond expiry map (spec glossary).  Lazy expiration at read
time happens inside the keyspace service; the dictionary is the view after
reclamation, so reads below do not consult the expiry map. -/
structure PStore where
  dict : ByteStr → Option PObject
  expire : ByteStr → Option Int

/-- The store with no keys and no expiries. -/
def emptyStore : PStore := { dict := fun _ => none, expire := fun _ => none }

/-- Modelled from the spec: KeyspaceService.GetValueByType (store.cc, not
under src/).  Section 6: returns the value, or WrongType on a type-tag
mismatch; section 3: a key is not existent if unmapped (or expired, which
the service's lazy expiration already removed from the dictionary view).
The out-parameter is only set on success. -/
def PStore.GetValueByType (st : PStore) (k : ByteStr) (ty : PType) :
    PError × Option PObject :=
  match st.dict k with
  | none => (PError.notExist, none)
  | some o => if o.ptype = ty then (PError.ok, some o) else (PError.type, none)

/-- Modelled from the spec: KeyspaceService.SetValue (store.cc, not under
src/).  Section 6 lists SetValue and ClearExpire as separate operations, and
every handler in cmd_kv.cc that must clear a TTL calls ClearExpire
explicitly before SetValue; SetValue therefore stores the value and leaves
the expiry map untouched. -/
def PStore.SetValue (st : PStore) (k : ByteStr) (o : PObject) : PStore :=
  { st with dict := fun j => if j = k then some o else st.dict j }

/-- Modelled from the spec: KeyspaceService.ClearExpire (store.cc, not under
src/), section 6: removes any expiry associated with the key. -/
def PStore.ClearExpire (st : PStore) (k : ByteStr) : PStore :=
  { st with expire := fun j => if j = k then none else st.expire j }

/-- Modelled from the spec: KeyspaceService.SetExpire (store.cc, not under
src/), section 6: sets the absolute-millisecond expiry of the key. -/
def PStore.SetExpire (st : PStore) (k : ByteStr) (t : Int) : PStore :=
  { st with expire := fun j => if j = k then some t else st.expire j }

/-- In-place payload update of a stored object (PObject::Reset in the
source): replaces the payload of the object the key maps to, keeping the
type tag and leaving the expiry map untouched. -/
def PStore.ResetValue (st : PStore) (k : ByteStr) (pv : PValue) : PStore :=
  { st with dict := fun j =>
      if j = k then (st.dict j).map (fun o => { o with value := pv })
      else st.dict j }

/-- The client context: raw argument frames, the resolved key or key list,
the reply result code with its detail, and the appended reply fragments
(PClient in the source; spec section 2). -/
structure Client where
  argv : List ByteStr
  key : ByteStr
  keys : List ByteStr
  res : CmdRes
  resDetail : ByteStr
  reply : List ReplyFrag
deriving DecidableEq

/-- A fresh client carrying the given argument frames. -/
def mkClient (argv : List ByteStr) : Client :=
  { argv := argv, key := [], keys := [], res := CmdRes.noRes, resDetail := [],
    reply := [] }

/-- PClient::SetKey with a single key. -/
def Client.SetKey (c : Client) (k : ByteStr) : Client := { c with key := k }

/-- PClient::SetKey with a key list. -/
def Client.SetKeys (c : Client) (ks : List ByteStr) : Client := { c with keys := ks }

/-- Modelled from the spec: PClient::SetRes (client.cc, not under src/).
Section 9 item 2 states that when SetRes is written twice the second write
wins, so the result code and its detail are overwriting fields. -/
def Client.SetRes (c : Client) (r : CmdRes) (d : ByteStr) : Client :=
  { c with res := r, resDetail := d }

/-- ReplyBuilder AppendString. -/
def Client.AppendString (c : Client) (s : ByteStr) : Client :=
  { c with reply := c.reply ++ [ReplyFrag.str s] }

/-- ReplyBuilder AppendInteger. -/
def Client.AppendInteger (c : Client) (n : Int) : Client :=
  { c with reply := c.reply ++ [ReplyFrag.int n] }

/-- ReplyBuilder AppendArrayLen. -/
def Client.AppendArrayLen (c : Client) (n : Int) : Client :=
  { c with reply := c.reply ++ [ReplyFrag.arrayLen n] }

/-- ReplyBuilder AppendStringLen (-1 encodes a nil bulk). -/
def Client.AppendStringLen (c : Client) (n : Int) : Client :=
  { c with reply := c.reply ++ [ReplyFrag.strLen n] }

/-- ReplyBuilder AppendContent. -/
def Client.AppendContent (c : Client) (s : ByteStr) : Client :=
  { c with reply := c.reply ++ [ReplyFrag.content s] }

/-- ASCII decimal digit test. -/
def isDigit (b : Nat) : Bool := decide (48 ≤ b ∧ b ≤ 57)

/-- Value of a list of ASCII decimal digits. -/
def digitsVal (l : ByteStr) : Nat := l.foldl (fun acc b => acc * 10 + (b - 48)) 0

/-- Modelled from the spec: the ArgParse component (pstd_string.cc and
common.cc, not under src/), section 2: parses a signed decimal integer from
a byte slice, none when the slice is not a well-formed integer. -/
def decimalToInt? (s : ByteStr) : Option Int :=
  match s with
  | [] => none
  | 45 :: rest =>
      if rest ≠ [] ∧ rest.all isDigit then some (-(digitsVal rest : Int)) else none
  | _ => if s.all isDigit then some (digitsVal s : Int) else none

/-- Modelled from the spec: pstd::String2int (pstd_string.cc, not under
src/), section 2 ArgParse: decimal integer parsing. -/
def String2int (s : ByteStr) : Option Int := decimalToInt? s

/-- Modelled from the spec: Strtol (common.cc, not under src/), section 2
ArgParse: decimal integer parsing of a signed long. -/
def Strtol (s : ByteStr) : Option Int := decimalToInt? s

/-- Digits of a positive natural, most significant first, as ASCII bytes. -/
def natToDecAux : Nat → ByteStr → ByteStr
  | 0, acc => acc
  | n + 1, acc => natToDecAux ((n + 1) / 10) (((n + 1) % 10 + 48) :: acc)
decreasing_by exact Nat.div_lt_self (Nat.succ_pos n) (by omega)

/-- ASCII decimal text of a natural number (std::to_string). -/
def natToDec (n : Nat) : ByteStr := if n = 0 then [48] else natToDecAux n []

/-- ASCII decimal text of an integer. -/
def intToDec (n : Int) : ByteStr :=
  if n < 0 then 45 :: natToDec n.natAbs else natToDec n.toNat

/-- The canonical-integer test used by the value codec: some n when the
byte string is exactly the decimal text of a signed 64-bit integer n. -/
def int64FromCanonical (v : ByteStr) : Option Int :=
  match decimalToInt? v with
  | some n =>
      if intToDec n = v ∧ -(2 ^ 63) ≤ n ∧ n < 2 ^ 63 then some n else none
  | none => none

/-- Modelled from the spec: PObject::CreateString on a byte string
(pobject.cc, not under src/).  Section 4.2 SET: stores a fresh Raw value, or
an Int-encoded one when the value parses as a signed 64-bit integer, and the
encoding choice is not observable through the codec; hence only the
canonical decimal form of an integer is Int-encoded.  The type tag is
String. -/
def PObject.CreateString (v : ByteStr) : PObject :=
  match int64FromCanonical v with
  | some n => { ptype := PType.string, value := PValue.int n }
  | none => { ptype := PType.string, value := PValue.raw v }

/-- Modelled from the spec: the PObject::CreateString overload on an integer
(pobject.cc, not under src/), spec section 3: numeric commands create
Int-encoded values. -/
def PObject.CreateStringInt (n : Int) : PObject :=
  { ptype := PType.string, value := PValue.int n }

/-- Modelled from the spec: GetDecodedString (the codec's decoded byte view,
not under src/).  Section 3 invariant 1: materializes the decimal text of an
Int value on demand and returns Raw bytes as they are. -/
def GetDecodedString (o : PObject) : ByteStr :=
  match o.value with
  | PValue.int n => intToDec n
  | PValue.raw b => b

theorem CreateString_ptype (v : ByteStr) :
    (PObject.CreateString v).ptype = PType.string := by
  unfold PObject.CreateString
  cases int64FromCanonical v <;> rfl

theorem decode_CreateString (v : ByteStr) :
    GetDecodedString (PObject.CreateString v) = v := by
  unfold PObject.CreateString int64FromCanonical
  cases h : decimalToInt? v with
  | none => rfl
  | some n =>
      by_cases h2 : intToDec n = v ∧ -(2 ^ 63) ≤ n ∧ n < 2 ^ 63
      · simp only [if_pos h2, GetDecodedString]
        exact h2.1
      · simp only [if_neg h2, GetDecodedString]

/-- Signed 64-bit two's-complement wrap-around, modelling the unchecked
intptr_t arithmetic in IncrCmd::DoCmd and DecrCmd::DoCmd. -/
def wrap64 (z : Int) : Int := (z + 2 ^ 63) % 2 ^ 64 - 2 ^ 63

/-- ASCII lowercase folding of a byte (spec section 9, design notes). -/
def lowerByte (b : Nat) : Nat := if 65 ≤ b ∧ b ≤ 90 then b + 32 else b

/-- Modelled from the spec: pstd::StringEqualCaseInsensitive (pstd_string.cc,
not under src/), section 9 design notes: comparison under ASCII-lowercase
folding of the operand bytes. -/
def StringEqualCaseInsensitive (a b : ByteStr) : Prop :=
  a.map lowerByte = b.map lowerByte

instance (a b : ByteStr) : Decidable (StringEqualCaseInsensitive a b) := by
  unfold StringEqualCaseInsensitive
  exact inferInstance

/-- Number of set bits in one byte. -/
def popcount8 (b : Nat) : Nat := (List.range 8).countP (fun i => b.testBit i)

/-- Modelled from the spec: BitCount (the BitOps population count helper,
not under src/), section 2: counts the set bits of a byte buffer. -/
def BitCount (buf : ByteStr) : Nat := (buf.map popcount8).sum

/-- The command lifecycle (spec section 4.1): the dispatcher invokes Initial
and, only on success, Execute; a failed Initial has already written its
error reply and Execute is skipped. -/
def runCommand (ini : Client → Bool × Client)
    (ex : PStore → Client → PStore × Client) (st : PStore) (c : Client) :
    PStore × Client :=
  match ini c with
  | (true, c1) => ex st c1
  | (false, c1) => (st, c1)

/-- The command lifecycle for handlers whose execution can hit undefined
behavior (modelled as none). -/
def runCommandP (ini : Client → Bool × Client)
    (ex : PStore → Client → Option (PStore × Client)) (st : PStore) (c : Client) :
    Option (PStore × Client) :=
  match ini c with
  | (true, c1) => ex st c1
  | (false, c1) => some (st, c1)

/-- Error detail text of GetCmd::DoCmd on a wrong-typed key. -/
def msgGetKeyError : ByteStr :=
  ascii ['g', 'e', 't', ' ', 'k', 'e', 'y', ' ', 'e', 'r', 'r', 'o', 'r']

/-- GetCmd::DoInitial (cmd_kv.cc lines 19-22): records argv[1] as the key. -/
def GetCmd.DoInitial (c : Client) : Bool × Client :=
  (true, c.SetKey (c.argv.getD 1 []))

/-- GetCmd::DoCmd (cmd_kv.cc lines 24-38): fetch the String-typed value of
the key; absent replies an empty bulk string, a wrong type replies
SyntaxErr with detail, success replies the decoded bytes. -/
def GetCmd.DoCmd (st : PStore) (c : Client) : PStore × Client :=
  match PStore.GetValueByType st c.key PType.string with
  | (PError.ok, some value) => (st, c.AppendString (GetDecodedString value))
  | (PError.notExist, _) => (st, c.AppendString [])
  | _ => (st, c.SetRes CmdRes.synErr msgGetKeyError)

/-- SetCmd::DoInitial (cmd_kv.cc lines 43-46). -/
def SetCmd.DoInitial (c : Client) : Bool × Client :=
  (true, c.SetKey (c.argv.getD 1 []))

/-- SetCmd::DoCmd (cmd_kv.cc lines 48-52): clear the key's old ttl, store
the fresh value, reply OK. -/
def SetCmd.DoCmd (st : PStore) (c : Client) : PStore × Client :=
  let k := c.argv.getD 1 []
  let st1 := st.ClearExpire k
  let st2 := st1.SetValue k (PObject.CreateString (c.argv.getD 2 []))
  (st2, c.SetRes CmdRes.ok [])

/-- MGetCmd::DoInitial (cmd_kv.cc lines 112-117): the key list is argv
without the command name. -/
def MGetCmd.DoInitial (c : Client) : Bool × Client :=
  (true, c.SetKeys (c.argv.drop 1))

/-- One iteration of the MGetCmd::DoCmd loop body (cmd_kv.cc lines 122-133):
a not-existent key appends a nil bulk; every other fetch outcome falls into
the decode branch, which reads the out-parameter — none models the null
dereference that a wrong-typed fetch leaves behind. -/
def MGetCmd.mgetStep (st : PStore) (k : ByteStr) (c : Client) : Option Client :=
  match PStore.GetValueByType st k PType.string with
  | (PError.notExist, _) => some (c.AppendStringLen (-1))
  | (_, some value) =>
      let reply := GetDecodedString value
      some ((c.AppendStringLen (reply.length : Int)).AppendContent reply)
  | (_, none) => none

/-- The MGetCmd::DoCmd loop over the key list. -/
def MGetCmd.mgetLoop (st : PStore) : List ByteStr → Client → Option Client
  | [], c => some c
  | k :: ks, c =>
      match MGetCmd.mgetStep st k c with
      | some c1 => MGetCmd.mgetLoop st ks c1
      | none => none

/-- MGetCmd::DoCmd (cmd_kv.cc lines 119-134): append the array length, then
one element per key. -/
def MGetCmd.DoCmd (st : PStore) (c : Client) : Option (PStore × Client) :=
  (MGetCmd.mgetLoop st c.keys (c.AppendArrayLen (c.keys.length : Int))).map
    (fun c1 => (st, c1))

/-- Error detail kCmdNameBitCount of BitCountCmd::DoInitial. -/
def msgBitCount : ByteStr :=
  ascii ['b', 'i', 't', 'c', 'o', 'u', 'n', 't']

/-- Error detail text of BitCountCmd::DoCmd on a wrong-typed key. -/
def msgBitCountGetKeyError : ByteStr :=
  ascii ['b', 'i', 't', 'c', 'o', 'u', 'n', 't', ' ', 'g', 'e', 't', ' ',
    'k', 'e', 'y', ' ', 'e', 'r', 'r', 'o', 'r']

/-- BitCountCmd::DoInitial (cmd_kv.cc lines 166-174): admit exactly 2 or 4
argument frames, otherwise SyntaxErr. -/
def BitCountCmd.DoInitial (c : Client) : Bool × Client :=
  if c.argv.length ≠ 2 ∧ c.argv.length ≠ 4 then
    (false, c.SetRes CmdRes.synErr msgBitCount)
  else (true, c.SetKey (c.argv.getD 1 []))

/-- BitCountCmd::DoCmd (cmd_kv.cc lines 176-218): fetch the value, then
unconditionally read argv[2] and argv[3]; those reads are past the end of
the argument vector in the 2-frame form, modelled as none.  On parse success
the offsets are normalized against the value length and the set bits of the
inclusive byte range are counted. -/
def BitCountCmd.DoCmd (st : PStore) (c : Client) : Option (PStore × Client) :=
  match c.argv.get? 1 with
  | none => none
  | some k1 =>
    match PStore.GetValueByType st k1 PType.string with
    | (PError.notExist, _) => some (st, c.AppendInteger 0)
    | (PError.ok, some value) =>
        match c.argv.get? 2, c.argv.get? 3 with
        | some a2, some a3 =>
            match String2int a2, String2int a3 with
            | some s0, some e0 =>
                let s := GetDecodedString value
                let len : Int := (s.length : Int)
                let s1 := if s0 < 0 then s0 + len else s0
                let e1 := if e0 < 0 then e0 + len else e0
                let s2 := if s1 < 0 then 0 else s1
                let e2 := if e1 < 0 then 0 else e1
                let e3 := if len ≤ e2 then len - 1 else e2
                let count : Nat :=
                  if s2 ≤ e3 then
                    BitCount ((s.drop s2.toNat).take (e3 - s2 + 1).toNat)
                  else 0
                some (st, c.AppendInteger (count : Int))
            | _, _ => some (st, c.SetRes CmdRes.invalidInt [])
        | _, _ => none
    | _ => some (st, c.SetRes CmdRes.errOther msgBitCountGetKeyError)

/-- DecrCmd::DoInitial (cmd_kv.cc lines 223-226). -/
def DecrCmd.DoInitial (c : Client) : Bool × Client :=
  (true, c.SetKey (c.argv.getD 1 []))

/-- DecrCmd::DoCmd (cmd_kv.cc lines 228-251): a not-existent key is created
with Int value -1; a non-Int encoding replies InvalidInt; otherwise the
stored integer is decremented in place with unchecked (wrapping) intptr_t
arithmetic and the new value is the reply. -/
def DecrCmd.DoCmd (st : PStore) (c : Client) : PStore × Client :=
  match PStore.GetValueByType st c.key PType.string with
  | (PError.notExist, _) =>
      (st.SetValue c.key (PObject.CreateStringInt (-1)), c.AppendInteger (-1))
  | (PError.ok, some value) =>
      match value.value with
      | PValue.raw _ => (st, c.SetRes CmdRes.invalidInt [])
      | PValue.int oldVal =>
          (st.ResetValue c.key (PValue.int (wrap64 (oldVal - 1))),
           c.AppendInteger (wrap64 (oldVal - 1)))
  | _ => (st, c.SetRes CmdRes.errOther [])

/-- IncrCmd::DoInitial (cmd_kv.cc lines 256-259). -/
def IncrCmd.DoInitial (c : Client) : Bool × Client :=
  (true, c.SetKey (c.argv.getD 1 []))

/-- IncrCmd::DoCmd (cmd_kv.cc lines 261-284): a not-existent key is created
with Int value 1; a non-Int encoding replies InvalidInt; otherwise the
stored integer is incremented in place with unchecked (wrapping) intptr_t
arithmetic and the new value is the reply. -/
def IncrCmd.DoCmd (st : PStore) (c : Client) : PStore × Client :=
  match PStore.GetValueByType st c.key PType.string with
  | (PError.notExist, _) =>
      (st.SetValue c.key (PObject.CreateStringInt 1), c.AppendInteger 1)
  | (PError.ok, some value) =>
      match value.value with
      | PValue.raw _ => (st, c.SetRes CmdRes.invalidInt [])
      | PValue.int oldVal =>
          (st.ResetValue c.key (PValue.int (wrap64 (oldVal + 1))),
           c.AppendInteger (wrap64 (oldVal + 1)))
  | _ => (st, c.SetRes CmdRes.errOther [])

/-- The lowercase keyword "and". -/
def kwAnd : ByteStr := ascii ['a', 'n', 'd']

/-- The lowercase keyword "or". -/
def kwOr : ByteStr := ascii ['o', 'r']

/-- The lowercase keyword "not". -/
def kwNot : ByteStr := ascii ['n', 'o', 't']

/-- The lowercase keyword "xor". -/
def kwXor : ByteStr := ascii ['x', 'o', 'r']

/-- Error detail text of BitOpCmd::DoInitial on an unknown operation. -/
def msgOperationError : ByteStr :=
  ascii ['o', 'p', 'e', 'r', 'a', 't', 'i', 'o', 'n', ' ', 'e', 'r', 'r',
    'o', 'r']

/-- The BITOP operation selector (BitOpCmd::BitOp in the source). -/
inductive BitOp where
  | opAnd
  | opOr
  | opXor
  | opNot
deriving DecidableEq

/-- Byte-wise combination used inside the StringBitOp loop. -/
def byteOp : BitOp → Nat → Nat → Nat
  | BitOp.opAnd, a, b => a &&& b
  | BitOp.opOr, a, b => a ||| b
  | BitOp.opXor, a, b => a ^^^ b
  | BitOp.opNot, a, _ => a

/-- One AND/OR/XOR accumulation step of StringBitOp (cmd_kv.cc lines
314-331): an empty accumulator is replaced by the source bytes; otherwise
the accumulator is grown to the source length with zero padding and the
operation is applied byte-wise over the source length, leaving any longer
accumulator tail untouched. -/
def bitopAccum (op : BitOp) (res str : ByteStr) : ByteStr :=
  if res.isEmpty then str
  else
    let res1 :=
      if res.length < str.length then
        res ++ List.replicate (str.length - res.length) 0
      else res
    (res1.take str.length).zipWith (byteOp op) str ++ res1.drop str.length

/-- StringBitOp (cmd_kv.cc lines 300-357): AND/OR/XOR fold the sources,
skipping keys whose String-typed fetch fails; NOT reads the single source
and bit-flips each byte, yielding the empty string when the fetch fails. -/
def StringBitOp (st : PStore) (keys : List ByteStr) (op : BitOp) : ByteStr :=
  match op with
  | BitOp.opNot =>
      match keys with
      | k0 :: _ =>
          match PStore.GetValueByType st k0 PType.string with
          | (PError.ok, some val) =>
              (GetDecodedString val).map (fun b => 255 - b % 256)
          | _ => []
      | [] => []
  | _ =>
      keys.foldl
        (fun res k =>
          match PStore.GetValueByType st k PType.string with
          | (PError.ok, some val) => bitopAccum op res (GetDecodedString val)
          | _ => res)
        []

/-- BitOpCmd::DoInitial (cmd_kv.cc lines 289-298): the operation token must
be one of and, or, not, xor case-insensitively; no key is recorded. -/
def BitOpCmd.DoInitial (c : Client) : Bool × Client :=
  let a1 := c.argv.getD 1 []
  if StringEqualCaseInsensitive a1 kwAnd ∨ StringEqualCaseInsensitive a1 kwOr ∨
      StringEqualCaseInsensitive a1 kwNot ∨ StringEqualCaseInsensitive a1 kwXor then
    (true, c)
  else (false, c.SetRes CmdRes.synErr msgOperationError)

/-- The dispatch of BitOpCmd::DoCmd (cmd_kv.cc lines 359-386): the source
keys are the frames from index 3 on; the branch dispatch reads the LENGTH of
the resolved key string (Key().size()), which DoInitial never set; the
matching branch computes the result byte string, every other leaves the
kPErrorParam error. -/
def BitOpCmd.step (st : PStore) (c : Client) : PError × ByteStr :=
  let keys := c.argv.drop 3
  let a1 := c.argv.getD 1 []
  if c.key.length = 2 then
    if StringEqualCaseInsensitive a1 kwOr then
      (PError.ok, StringBitOp st keys BitOp.opOr)
    else (PError.param, [])
  else if c.key.length = 3 then
    if StringEqualCaseInsensitive a1 kwXor then
      (PError.ok, StringBitOp st keys BitOp.opXor)
    else if StringEqualCaseInsensitive a1 kwAnd then
      (PError.ok, StringBitOp st keys BitOp.opAnd)
    else if StringEqualCaseInsensitive a1 kwNot then
      if c.argv.length = 4 then (PError.ok, StringBitOp st keys BitOp.opNot)
      else (PError.param, [])
    else (PError.param, [])
  else (PError.param, [])

/-- BitOpCmd::DoCmd (cmd_kv.cc lines 359-395): on the error path the
SyntaxErr result is written and nothing is stored; on success the result is
stored under the destination frame argv[2] with no ClearExpire.  In every
path the final unconditional SetRes (line 394) overwrites the result with OK
and the decimal length of the computed byte string (the second write wins,
spec section 9 item 2). -/
def BitOpCmd.DoCmd (st : PStore) (c : Client) : PStore × Client :=
  let step := BitOpCmd.step st c
  let res := step.2
  if step.1 ≠ PError.ok then
    let c1 := c.SetRes CmdRes.synErr []
    (st, c1.SetRes CmdRes.ok (natToDec res.length))
  else
    let st1 := st.SetValue (c.argv.getD 2 []) (PObject.CreateString res)
    let c1 := c.SetRes CmdRes.ok (natToDec res.length)
    (st1, c1.SetRes CmdRes.ok (natToDec res.length))

/-- Syntactic long-double test: optional sign, then digits with an optional
fractional part or a bare fractional part, then an optional exponent. -/
def stripSign : ByteStr → ByteStr
  | 43 :: r => r
  | 45 :: r => r
  | s => s

/-- Exponent suffix test for the long-double grammar. -/
def expOk : ByteStr → Bool
  | [] => true
  | 101 :: r => let r1 := stripSign r; decide (r1 ≠ []) && r1.all isDigit
  | 69 :: r => let r1 := stripSign r; decide (r1 ≠ []) && r1.all isDigit
  | _ => false

/-- Modelled from the spec: whether a byte slice parses as a long-double
(the ArgParse component, pstd_string.cc, not under src/; spec section 2 and
section 4.2 INCRBYFLOAT). -/
def LongDoubleParses (s : ByteStr) : Bool :=
  let b := stripSign s
  let ip := b.takeWhile isDigit
  let r := b.dropWhile isDigit
  match r with
  | 46 :: r2 =>
      let fp := r2.takeWhile isDigit
      let r3 := r2.dropWhile isDigit
      (decide (ip ≠ []) || decide (fp ≠ [])) && expOk r3
  | _ => decide (ip ≠ []) && expOk r

/-- Modelled from the spec: StrToLongDouble (pstd_string.cc, not under
src/): parses the slice as a long-double and returns 0 on success and a
nonzero flag on failure, matching the spec's contract that a delta that
fails to parse yields InvalidFloat (section 4.2). -/
def StrToLongDouble (s : ByteStr) : Int :=
  if LongDoubleParses s then 0 else -1

/-- IncrbyFloatCmd::DoInitial (cmd_kv.cc lines 545-553): a nonzero parse
flag replies InvalidFloat and fails; otherwise the key is recorded and
Initial succeeds. -/
def IncrbyFloatCmd.DoInitial (c : Client) : Bool × Client :=
  if StrToLongDouble (c.argv.getD 2 []) ≠ 0 then
    (false, c.SetRes CmdRes.invalidFloat [])
  else (true, c.SetKey (c.argv.getD 1 []))

/-- GetBitCmd::DoInitial (cmd_kv.cc lines 600-603). -/
def GetBitCmd.DoInitial (c : Client) : Bool × Client :=
  (true, c.SetKey (c.argv.getD 1 []))

/-- GetBitCmd::DoCmd (cmd_kv.cc lines 605-638): any failed fetch (absent or
wrong type) replies ErrOther; an unparseable offset replies InvalidInt; an
offset outside [0, 8N) replies 0; otherwise the LSB-first bit
offset%8 of byte offset/8 is tested with byte & (1 << bit). -/
def GetBitCmd.DoCmd (st : PStore) (c : Client) : PStore × Client :=
  match PStore.GetValueByType st c.key PType.string with
  | (PError.ok, some value) =>
      match Strtol (c.argv.getD 2 []) with
      | none => (st, c.SetRes CmdRes.invalidInt [])
      | some offset =>
          let s := GetDecodedString value
          let size : Int := 8 * (s.length : Int)
          if offset < 0 ∨ size ≤ offset then (st, c.AppendInteger 0)
          else
            let bytesOffset := offset.toNat / 8
            let bitsOffset := offset.toNat % 8
            let byte := s.getD bytesOffset 0
            if byte &&& (1 <<< bitsOffset) ≠ 0 then (st, c.AppendInteger 1)
            else (st, c.AppendInteger 0)
  | _ => (st, c.SetRes CmdRes.errOther [])

/-- Error detail text of GetRangeCmd::DoCmd on a wrong-typed key. -/
def msgGetRangeError : ByteStr :=
  ascii ['g', 'e', 't', 'r', 'a', 'n', 'g', 'e', ' ', 'c', 'm', 'd', ' ',
    'e', 'r', 'r', 'o', 'r']

/-- C++ std::string::substr(pos, count): none (std::out_of_range) when pos
exceeds the length; a negative count, converted to size_t, reaches the end
of the string. -/
def cppSubstr (s : ByteStr) (pos : Nat) (count : Int) : Option ByteStr :=
  if s.length < pos then none
  else some ((s.drop pos).take (if count < 0 then s.length else count.toNat))

/-- GetRangeCmd::DoInitial (cmd_kv.cc lines 643-655): both offsets must
parse as integers, otherwise InvalidInt. -/
def GetRangeCmd.DoInitial (c : Client) : Bool × Client :=
  match String2int (c.argv.getD 2 []), String2int (c.argv.getD 3 []) with
  | some _, some _ => (true, c.SetKey (c.argv.getD 1 []))
  | _, _ => (false, c.SetRes CmdRes.invalidInt [])

/-- GetRangeCmd::DoCmd (cmd_kv.cc lines 657-703): absent replies the empty
string, wrong type replies ErrOther; then the RAW offsets are compared and
end < start already replies the empty string BEFORE any normalization;
only afterwards are negative offsets normalized by adding the length,
clamped to 0 and the end clamped to length-1, and the substr slice is the
reply. -/
def GetRangeCmd.DoCmd (st : PStore) (c : Client) : Option (PStore × Client) :=
  match PStore.GetValueByType st c.key PType.string with
  | (PError.ok, some value) =>
      let start0 := (String2int (c.argv.getD 2 [])).getD 0
      let end0 := (String2int (c.argv.getD 3 [])).getD 0
      let s := GetDecodedString value
      let len : Int := (s.length : Int)
      if end0 < start0 then some (st, c.AppendString [])
      else
        let start1 := if start0 < 0 then start0 + len else start0
        let end1 := if end0 < 0 then end0 + len else end0
        let start2 := if start1 < 0 then 0 else start1
        let end2 := if end1 < 0 then 0 else end1
        let end3 := if len ≤ end2 then len - 1 else end2
        (cppSubstr s start2.toNat (end3 - start2 + 1)).map
          (fun sub => (st, c.AppendString sub))
  | (PError.notExist, _) => some (st, c.AppendString [])
  | _ => some (st, c.SetRes CmdRes.errOther msgGetRangeError)

/-- Modelled from the spec: the implementation range constant kStringMaxBytes
(common.h, not under src/); section 4.2 SETBIT gives the offset bound as an
implementation constant of typically 2^32-1 bytes of 8 bits.  The theorems
below only exercise offsets below 0, independent of this value. -/
def kStringMaxBytes : Int := 8 * (2 ^ 32 - 1)

/-- Modelled from the spec: PObject::CastString (pobject.h, not under src/):
yields the PString payload of a Raw-encoded value; the handler guards a null
result for the non-Raw case. -/
def PObject.CastString (o : PObject) : Option ByteStr :=
  match o.value with
  | PValue.raw b => some b
  | PValue.int _ => none

/-- SetBitCmd::DoInitial (cmd_kv.cc lines 708-711). -/
def SetBitCmd.DoInitial (c : Client) : Bool × Client :=
  (true, c.SetKey (c.argv.getD 1 []))

/-- The part of SetBitCmd::DoCmd after the key has been fetched or created
(cmd_kv.cc lines 726-765): parse the offset and value frames (failure
replies InvalidInt), bound the offset (out of range replies 0), grow the
byte buffer with zero fill, set or clear the targeted bit in place and
reply the previous bit value. -/
def SetBitCmd.DoCmdBody (st : PStore) (value : PObject) (c : Client) :
    PStore × Client :=
  match Strtol (c.argv.getD 2 []), Strtol (c.argv.getD 3 []) with
  | some offset, some onVal =>
      if offset < 0 ∨ kStringMaxBytes < offset then (st, c.AppendInteger 0)
      else
        match value.CastString with
        | none => (st, c.AppendInteger 0)
        | some buf =>
            let bytes := offset.toNat / 8
            let bits := offset.toNat % 8
            let newVal :=
              if buf.length < bytes + 1 then
                buf ++ List.replicate (bytes + 1 - buf.length) 0
              else buf
            let oldByte := newVal.getD bytes 0
            let newByte :=
              if onVal ≠ 0 then oldByte ||| (1 <<< bits)
              else oldByte &&& (255 ^^^ (1 <<< bits))
            let st1 := st.ResetValue c.key (PValue.raw (newVal.set bytes newByte))
            (st1, c.AppendInteger (if oldByte &&& (1 <<< bits) ≠ 0 then 1 else 0))
  | _, _ => (st, c.SetRes CmdRes.invalidInt [])

/-- SetBitCmd::DoCmd (cmd_kv.cc lines 713-766): a not-existent key is FIRST
created bound to the empty string and only then are the operand frames
validated; any other failed fetch replies 0. -/
def SetBitCmd.DoCmd (st : PStore) (c : Client) : PStore × Client :=
  match PStore.GetValueByType st c.key PType.string with
  | (PError.notExist, _) =>
      SetBitCmd.DoCmdBody (st.SetValue c.key (PObject.CreateString []))
        (PObject.CreateString []) c
  | (PError.ok, some value) => SetBitCmd.DoCmdBody st value c
  | _ => (st, c.AppendInteger 0)

/-- Claim C1: for every key k and value v, executing SET k v and then GET k
returns v byte-for-byte: SET replaces the stored value and GET on a present
String-typed key replies the decoded bytes of that value. -/
theorem claimC1_set_then_get (st : PStore) (k v : ByteStr) :
    ((runCommand SetCmd.DoInitial SetCmd.DoCmd st (mkClient [[], k, v])).2.res
        = CmdRes.ok) ∧
    ((runCommand GetCmd.DoInitial GetCmd.DoCmd
        (runCommand SetCmd.DoInitial SetCmd.DoCmd st (mkClient [[], k, v])).1
        (mkClient [[], k])).2.reply = [ReplyFrag.str v]) := by
  constructor
  · rfl
  · simp [runCommand, SetCmd.DoInitial, SetCmd.DoCmd, GetCmd.DoInitial,
      GetCmd.DoCmd, mkClient, Client.SetKey, Client.SetRes, Client.AppendString,
      PStore.SetValue, PStore.ClearExpire, PStore.GetValueByType,
      CreateString_ptype, decode_CreateString]

/-- The key k used in concrete scenarios. -/
def keyK : ByteStr := ascii ['k']

/-- A store whose only key holds the Int-encoded value INT64_MAX. -/
def storeC3max : PStore :=
  { dict := fun j =>
      if j = keyK then
        some { ptype := PType.string, value := PValue.int (2 ^ 63 - 1) }
      else none,
    expire := fun _ => none }

/-- A store whose only key holds the Int-encoded value INT64_MIN. -/
def storeC3min : PStore :=
  { dict := fun j =>
      if j = keyK then
        some { ptype := PType.string, value := PValue.int (-(2 ^ 63)) }
      else none,
    expire := fun _ => none }

/-- Claim C3 evaluated on the code: INCR on an Int-encoded INT64_MAX does
NOT reply InvalidInt; the unchecked arithmetic wraps to INT64_MIN, replies
that integer and overwrites the stored value, and symmetrically DECR on
INT64_MIN wraps to INT64_MAX. -/
theorem claimC3_overflow_wraps :
    ((runCommand IncrCmd.DoInitial IncrCmd.DoCmd storeC3max
        (mkClient [[], keyK])).2.reply = [ReplyFrag.int (-(2 ^ 63))] ∧
     (runCommand IncrCmd.DoInitial IncrCmd.DoCmd storeC3max
        (mkClient [[], keyK])).2.res ≠ CmdRes.invalidInt ∧
     (runCommand IncrCmd.DoInitial IncrCmd.DoCmd storeC3max
        (mkClient [[], keyK])).1.dict keyK
        = some { ptype := PType.string, value := PValue.int (-(2 ^ 63)) }) ∧
    ((runCommand DecrCmd.DoInitial DecrCmd.DoCmd storeC3min
        (mkClient [[], keyK])).2.reply = [ReplyFrag.int (2 ^ 63 - 1)] ∧
     (runCommand DecrCmd.DoInitial DecrCmd.DoCmd storeC3min
        (mkClient [[], keyK])).2.res ≠ CmdRes.invalidInt ∧
     (runCommand DecrCmd.DoInitial DecrCmd.DoCmd storeC3min
        (mkClient [[], keyK])).1.dict keyK
        = some { ptype := PType.string, value := PValue.int (2 ^ 63 - 1) }) := by
  exact ⟨⟨by decide, by decide, by decide⟩, ⟨by decide, by decide, by decide⟩⟩

/-- The destination key of the BITOP scenarios. -/
def keyDest : ByteStr := ascii ['d']

/-- The first source key of the BITOP scenarios. -/
def keyK1 : ByteStr := ascii ['k', '1']

/-- The second source key of the BITOP scenarios. -/
def keyK2 : ByteStr := ascii ['k', '2']

/-- The uppercase operation token NOT. -/
def kwNotUpper : ByteStr := ascii ['N', 'O', 'T']

/-- The client of the C4 scenario: BITOP NOT dest k1 k2, five argument
frames, fresh client (BitOpCmd::DoInitial never records a key). -/
def clientC4 : Client := mkClient [[], kwNotUpper, keyDest, keyK1, keyK2]

/-- Claim C4 evaluated on the code: BITOP NOT with two source keys passes
DoInitial, reaches the error path of DoCmd (nothing is stored under
destkey), but the unconditional final SetRes overwrites the SyntaxErr
result, so the single user-visible result is OK with detail 0 — not the
SyntaxErr error reply the claim states. -/
theorem claimC4_syntax_error_overwritten :
    ((runCommand BitOpCmd.DoInitial BitOpCmd.DoCmd emptyStore clientC4).2.res
        = CmdRes.ok) ∧
    ((runCommand BitOpCmd.DoInitial BitOpCmd.DoCmd emptyStore clientC4).2.resDetail
        = natToDec 0) ∧
    ((runCommand BitOpCmd.DoInitial BitOpCmd.DoCmd emptyStore clientC4).1.dict
        keyDest = none) := by
  exact ⟨rfl, rfl, rfl⟩

/-- A store whose key k holds the one-byte Raw value 0xff. -/
def storeC6 : PStore :=
  { dict := fun j =>
      if j = keyK then
        some { ptype := PType.string, value := PValue.raw [255] }
      else none,
    expire := fun _ => none }

/-- Claim C6 evaluated on the code: BITCOUNT with exactly two argument
frames on an existing String key passes DoInitial, but DoCmd then
unconditionally reads argument positions 2 and 3, which do not exist —
the run aborts in the out-of-bounds access instead of replying the
whole-value popcount. -/
theorem claimC6_out_of_bounds_argv :
    runCommandP BitCountCmd.DoInitial BitCountCmd.DoCmd storeC6
      (mkClient [[], keyK]) = none := rfl

/-- The wrong-typed key of the C7 scenario. -/
def keyH : ByteStr := ascii ['h']

/-- A store whose key h exists under the Hash type. -/
def storeC7 : PStore :=
  { dict := fun j =>
      if j = keyH then some { ptype := PType.hash, value := PValue.raw [] }
      else none,
    expire := fun _ => none }

/-- Claim C7 evaluated on the code: MGET of a key that exists under a
different type does not append a nil bulk — the handler only tests for
kPErrorNotExist, treats the WrongType fetch as success and decodes the
out-parameter that was never set (a null dereference, modelled as none). -/
theorem claimC7_wrong_type_not_nil :
    runCommandP MGetCmd.DoInitial MGetCmd.DoCmd storeC7
      (mkClient [[], keyH]) = none := rfl

/-- The byte string "hello". -/
def hello : ByteStr := ascii ['h', 'e', 'l', 'l', 'o']

/-- A store whose key k holds the Raw value "hello". -/
def storeC2 : PStore :=
  { dict := fun j =>
      if j = keyK then some { ptype := PType.string, value := PValue.raw hello }
      else none,
    expire := fun _ => none }

/-- The client of the C2 counterexample: GETRANGE k 0 -1. -/
def clientC2 : Client :=
  (GetRangeCmd.DoInitial (mkClient [[], keyK, [48], [45, 49]])).2

/-- Claim C2 counterexample: GETRANGE k 0 -1 on the non-empty value "hello"
replies the EMPTY string, not the whole value — the handler compares the raw
offsets before normalizing them, so end = -1 < start = 0 already takes the
empty-string branch. -/
theorem claimC2_counterexample :
    GetRangeCmd.DoCmd storeC2 clientC2 = some (storeC2, clientC2.AppendString [])
      ∧ clientC2.AppendString [] ≠ clientC2.AppendString hello := by
  exact ⟨rfl, by decide⟩

/-- Claim C2 amended: GETRANGE decides emptiness on the RAW offsets — if the
raw end < start the reply is the empty string (so GETRANGE k 0 -1 on a
non-empty value is empty); only when raw end ≥ start are negative offsets
normalized by adding N, clamped to 0 and the end clamped to N-1, and the
reply is the substr slice of count end-start+1 from the normalized start. -/
theorem claimC2_amended (st : PStore) (c : Client) (value : PObject)
    (start0 end0 : Int)
    (hv : st.dict c.key = some value) (hty : value.ptype = PType.string)
    (h2 : String2int (c.argv.getD 2 []) = some start0)
    (h3 : String2int (c.argv.getD 3 []) = some end0) :
    (end0 < start0 → GetRangeCmd.DoCmd st c = some (st, c.AppendString [])) ∧
    (start0 ≤ end0 →
      (let s := GetDecodedString value
       let len : Int := (s.length : Int)
       let start1 := if start0 < 0 then start0 + len else start0
       let end1 := if end0 < 0 then end0 + len else end0
       let start2 := if start1 < 0 then 0 else start1
       let end2 := if end1 < 0 then 0 else end1
       let end3 := if len ≤ end2 then len - 1 else end2
       GetRangeCmd.DoCmd st c =
         (cppSubstr s start2.toNat (end3 - start2 + 1)).map
           (fun sub => (st, c.AppendString sub)))) := by
  have hfetch : PStore.GetValueByType st c.key PType.string
      = (PError.ok, some value) := by
    simp [PStore.GetValueByType, hv, hty]
  constructor
  · intro hlt
    simp only [GetRangeCmd.DoCmd, hfetch, h2, h3, Option.getD_some]
    rw [if_pos hlt]
  · intro hle
    simp only [GetRangeCmd.DoCmd, hfetch, h2, h3, Option.getD_some]
    rw [if_neg (by omega)]

/-- The client of the C2 amended witness: GETRANGE k 1 3. -/
def clientC2w : Client :=
  (GetRangeCmd.DoInitial (mkClient [[], keyK, [49], [51]])).2

theorem claimC2_amended_witness :
    GetRangeCmd.DoCmd storeC2 clientC2w
      = some (storeC2, clientC2w.AppendString (ascii ['e', 'l', 'l'])) := by
  have h := (claimC2_amended storeC2 clientC2w
      { ptype := PType.string, value := PValue.raw hello } 1 3
      rfl rfl rfl rfl).2 (by decide)
  exact h.trans rfl

/-- Two keywords with different lowercase foldings cannot both match the
same operand case-insensitively. -/
theorem eqCI_unique (a b1 b2 : ByteStr)
    (h : StringEqualCaseInsensitive a b1)
    (hne : b1.map lowerByte ≠ b2.map lowerByte) :
    ¬ StringEqualCaseInsensitive a b2 := by
  unfold StringEqualCaseInsensitive at *
  rw [h]
  exact hne

/-- A store for the C5 scenarios: the source key k1 holds a one-byte Raw
value and the destination key carries a prior expiry of 5. -/
def storeC5 : PStore :=
  { dict := fun j =>
      if j = keyK1 then some { ptype := PType.string, value := PValue.raw [1] }
      else none,
    expire := fun j => if j = keyDest then some 5 else none }

/-- The client of the C5 scenarios: BITOP OR dest k1, with a leftover
resolved key of length 2 (BitOpCmd::DoInitial never sets the key, so the
dispatch on Key().size() reads whatever the field holds). -/
def clientC5 : Client := { mkClient [[], kwOr, keyDest, keyK1] with key := [0, 0] }

/-- Claim C5 counterexample: a successful BITOP stores the result under
destkey, but destkey's prior expiry of 5 is STILL PRESENT afterwards — the
handler calls SetValue without ClearExpire, so the expiry is not cleared as
the claim states. -/
theorem claimC5_counterexample :
    ((BitOpCmd.DoCmd storeC5 clientC5).1.dict keyDest
        = some (PObject.CreateString [1])) ∧
    ((BitOpCmd.DoCmd storeC5 clientC5).1.expire keyDest = some 5) := by
  exact ⟨rfl, rfl⟩

/-- Claim C5 amended: for every successful BITOP (a dispatch branch with a
valid operation and key count), the result byte string is stored under the
destination frame with destkey's prior expiry LEFT UNTOUCHED (SetValue does
not clear expiry and the handler performs no ClearExpire), all keys other
than destkey are unchanged, and the final reply result is OK carrying the
decimal length of the result once (the duplicated SetRes overwrites the
first write with identical content). -/
theorem claimC5_amended (st : PStore) (c : Client)
    (hsucc :
      (c.key.length = 2 ∧ StringEqualCaseInsensitive (c.argv.getD 1 []) kwOr) ∨
      (c.key.length = 3 ∧
        (StringEqualCaseInsensitive (c.argv.getD 1 []) kwXor ∨
         StringEqualCaseInsensitive (c.argv.getD 1 []) kwAnd ∨
         (StringEqualCaseInsensitive (c.argv.getD 1 []) kwNot ∧
           c.argv.length = 4)))) :
    ∃ op res,
      res = StringBitOp st (c.argv.drop 3) op ∧
      (BitOpCmd.DoCmd st c).1.dict (c.argv.getD 2 [])
          = some (PObject.CreateString res) ∧
      (∀ j, j ≠ c.argv.getD 2 [] →
        (BitOpCmd.DoCmd st c).1.dict j = st.dict j) ∧
      (BitOpCmd.DoCmd st c).1.expire = st.expire ∧
      (BitOpCmd.DoCmd st c).2.res = CmdRes.ok ∧
      (BitOpCmd.DoCmd st c).2.resDetail = natToDec res.length ∧
      (BitOpCmd.DoCmd st c).2.reply = c.reply := by
  have hstep : ∃ op, BitOpCmd.step st c
      = (PError.ok, StringBitOp st (c.argv.drop 3) op) := by
    rcases hsucc with ⟨hlen, heq⟩ | ⟨hlen, heq | heq | ⟨heq, hargv⟩⟩
    · refine ⟨BitOp.opOr, ?_⟩
      unfold BitOpCmd.step
      rw [if_pos hlen, if_pos heq]
    · refine ⟨BitOp.opXor, ?_⟩
      unfold BitOpCmd.step
      rw [if_neg (by omega), if_pos hlen, if_pos heq]
    · have hx : ¬ StringEqualCaseInsensitive (c.argv.getD 1 []) kwXor :=
        eqCI_unique _ kwAnd kwXor heq (by decide)
      refine ⟨BitOp.opAnd, ?_⟩
      unfold BitOpCmd.step
      rw [if_neg (by omega), if_pos hlen, if_neg hx, if_pos heq]
    · have hx : ¬ StringEqualCaseInsensitive (c.argv.getD 1 []) kwXor :=
        eqCI_unique _ kwNot kwXor heq (by decide)
      have ha : ¬ StringEqualCaseInsensitive (c.argv.getD 1 []) kwAnd :=
        eqCI_unique _ kwNot kwAnd heq (by decide)
      refine ⟨BitOp.opNot, ?_⟩
      unfold BitOpCmd.step
      rw [if_neg (by omega), if_pos hlen, if_neg hx, if_neg ha, if_pos heq,
        if_pos hargv]
  obtain ⟨op, heqstep⟩ := hstep
  refine ⟨op, StringBitOp st (c.argv.drop 3) op, rfl, ?_, ?_, ?_, ?_, ?_, ?_⟩ <;>
    simp [BitOpCmd.DoCmd, heqstep, PStore.SetValue, Client.SetRes]
  intro j hj
  simp [hj]

theorem claimC5_amended_witness :
    ((BitOpCmd.DoCmd storeC5 clientC5).1.expire = storeC5.expire) ∧
    ((BitOpCmd.DoCmd storeC5 clientC5).2.res = CmdRes.ok) := by
  obtain ⟨op, res, h1, h2, h3, h4, h5, h6, h7⟩ :=
    claimC5_amended storeC5 clientC5 (Or.inl ⟨rfl, by decide⟩)
  exact ⟨h4, h5⟩

/-- Claim C8: INCRBYFLOAT argument validation fails with InvalidFloat
exactly when the delta operand does not parse as a long-double: a
non-parseable delta makes Initial reply InvalidFloat with Execute skipped
and the store untouched; a parseable delta makes Initial succeed and
Execute run on the key-resolved client. -/
theorem claimC8_invalidfloat_iff (st : PStore) (c : Client)
    (ex : PStore → Client → PStore × Client) :
    (LongDoubleParses (c.argv.getD 2 []) = false →
      runCommand IncrbyFloatCmd.DoInitial ex st c
        = (st, c.SetRes CmdRes.invalidFloat [])) ∧
    (LongDoubleParses (c.argv.getD 2 []) = true →
      runCommand IncrbyFloatCmd.DoInitial ex st c
        = ex st (c.SetKey (c.argv.getD 1 []))) := by
  constructor
  · intro h
    unfold runCommand IncrbyFloatCmd.DoInitial StrToLongDouble
    rw [h]
    simp
  · intro h
    unfold runCommand IncrbyFloatCmd.DoInitial StrToLongDouble
    rw [h]
    simp

/-- An INCRBYFLOAT client whose delta frame "x" does not parse. -/
def clientC8 : Client := mkClient [[], keyK, [120]]

/-- An INCRBYFLOAT client whose delta frame "3.5" parses. -/
def clientC8b : Client := mkClient [[], keyK, ascii ['3', '.', '5']]

/-- An Execute stand-in that returns its inputs unchanged. -/
def exNoop : PStore → Client → PStore × Client := fun st c => (st, c)

theorem claimC8_witness :
    (runCommand IncrbyFloatCmd.DoInitial exNoop emptyStore clientC8
      = (emptyStore, clientC8.SetRes CmdRes.invalidFloat [])) ∧
    (runCommand IncrbyFloatCmd.DoInitial exNoop emptyStore clientC8b
      = exNoop emptyStore (clientC8b.SetKey keyK)) := by
  exact ⟨(claimC8_invalidfloat_iff emptyStore clientC8 exNoop).1 rfl,
         (claimC8_invalidfloat_iff emptyStore clientC8b exNoop).2 rfl⟩

/-- Claim C9: for every existing String key with decoded value s and parsed
integer offset o, GETBIT replies 0 when o is negative or at least 8 times
the byte length, and otherwise replies bit o mod 8 of byte o div 8 under
LSB-first numbering (byte AND (1 shifted left by bit)); when the key is
absent or wrong-typed the reply result is ErrOther. -/
theorem claimC9_getbit (st : PStore) (c : Client) (o : Int)
    (hparse : Strtol (c.argv.getD 2 []) = some o) :
    (∀ value, st.dict c.key = some value → value.ptype = PType.string →
      (GetBitCmd.DoCmd st c).2.reply =
        c.reply ++
          [ReplyFrag.int
            (if o < 0 ∨ 8 * ((GetDecodedString value).length : Int) ≤ o then 0
             else if (GetDecodedString value).getD (o.toNat / 8) 0 &&&
                 (1 <<< (o.toNat % 8)) ≠ 0 then 1
             else 0)]) ∧
    (st.dict c.key = none → (GetBitCmd.DoCmd st c).2.res = CmdRes.errOther) ∧
    (∀ value, st.dict c.key = some value → value.ptype ≠ PType.string →
      (GetBitCmd.DoCmd st c).2.res = CmdRes.errOther) := by
  refine ⟨?_, ?_, ?_⟩
  · intro value hv hty
    simp only [List.getD_eq_getElem?_getD] at hparse
    by_cases hrange : o < 0 ∨ 8 * ((GetDecodedString value).length : Int) ≤ o
    · simp [GetBitCmd.DoCmd, PStore.GetValueByType, hv, hty, hparse, hrange,
        Client.AppendInteger]
    · by_cases hbit : (GetDecodedString value).getD (o.toNat / 8) 0 &&&
          (1 <<< (o.toNat % 8)) ≠ 0
      · simp only [List.getD_eq_getElem?_getD] at hbit
        simp [GetBitCmd.DoCmd, PStore.GetValueByType, hv, hty, hparse, hrange,
          hbit, Client.AppendInteger]
      · simp only [List.getD_eq_getElem?_getD] at hbit
        simp [GetBitCmd.DoCmd, PStore.GetValueByType, hv, hty, hparse, hrange,
          hbit, Client.AppendInteger]
  · intro hv
    simp [GetBitCmd.DoCmd, PStore.GetValueByType, hv, Client.SetRes]
  · intro value hv hty
    simp [GetBitCmd.DoCmd, PStore.GetValueByType, hv, hty, Client.SetRes]

/-- A store whose key k holds the one-byte Raw value 5 (bits 0 and 2 set). -/
def storeC9 : PStore :=
  { dict := fun j =>
      if j = keyK then some { ptype := PType.string, value := PValue.raw [5] }
      else none,
    expire := fun _ => none }

/-- The client of the C9 witness: GETBIT k 2. -/
def clientC9 : Client := (GetBitCmd.DoInitial (mkClient [[], keyK, [50]])).2

theorem claimC9_witness :
    (GetBitCmd.DoCmd storeC9 clientC9).2.reply = [ReplyFrag.int 1] := by
  have h := (claimC9_getbit storeC9 clientC9 2 rfl).1
      { ptype := PType.string, value := PValue.raw [5] } rfl rfl
  exact h.trans (by decide)

/-- Claim C10: SETBIT on an absent key creates the key bound to the empty
Raw string BEFORE validating the offset and value operands; when the
operands then fail to parse the reply is InvalidInt, and when the offset is
out of range the reply is integer 0, yet in both cases the key exists
afterwards holding the empty Raw value. -/
theorem claimC10_create_before_validate (st : PStore) (c : Client)
    (habs : st.dict c.key = none) :
    (Strtol (c.argv.getD 2 []) = none ∨ Strtol (c.argv.getD 3 []) = none →
      (SetBitCmd.DoCmd st c).1.dict c.key
          = some { ptype := PType.string, value := PValue.raw [] } ∧
      (SetBitCmd.DoCmd st c).2.res = CmdRes.invalidInt) ∧
    (∀ o w, Strtol (c.argv.getD 2 []) = some o →
      Strtol (c.argv.getD 3 []) = some w →
      o < 0 ∨ kStringMaxBytes < o →
      (SetBitCmd.DoCmd st c).1.dict c.key
          = some { ptype := PType.string, value := PValue.raw [] } ∧
      (SetBitCmd.DoCmd st c).2.reply = c.reply ++ [ReplyFrag.int 0]) := by
  have hnil : PObject.CreateString []
      = { ptype := PType.string, value := PValue.raw [] } := rfl
  have hcreated :
      (st.SetValue c.key (PObject.CreateString [])).dict c.key
        = some { ptype := PType.string, value := PValue.raw [] } := by
    simp [PStore.SetValue, hnil]
  constructor
  · intro hbad
    rcases hbad with hbad | hbad
    · simp only [List.getD_eq_getElem?_getD] at hbad
      have hred : SetBitCmd.DoCmd st c
          = (st.SetValue c.key (PObject.CreateString []),
             c.SetRes CmdRes.invalidInt []) := by
        simp [SetBitCmd.DoCmd, PStore.GetValueByType, habs,
          SetBitCmd.DoCmdBody, hbad]
      rw [hred]
      exact ⟨hcreated, rfl⟩
    · simp only [List.getD_eq_getElem?_getD] at hbad
      cases hx : Strtol (c.argv[2]?.getD []) with
      | none =>
          have hred : SetBitCmd.DoCmd st c
              = (st.SetValue c.key (PObject.CreateString []),
                 c.SetRes CmdRes.invalidInt []) := by
            simp [SetBitCmd.DoCmd, PStore.GetValueByType, habs,
              SetBitCmd.DoCmdBody, hbad, hx]
          rw [hred]
          exact ⟨hcreated, rfl⟩
      | some o =>
          have hred : SetBitCmd.DoCmd st c
              = (st.SetValue c.key (PObject.CreateString []),
                 c.SetRes CmdRes.invalidInt []) := by
            simp [SetBitCmd.DoCmd, PStore.GetValueByType, habs,
              SetBitCmd.DoCmdBody, hbad, hx]
          rw [hred]
          exact ⟨hcreated, rfl⟩
  · intro o w ho hw hrange
    simp only [List.getD_eq_getElem?_getD] at ho hw
    have hred : SetBitCmd.DoCmd st c
        = (st.SetValue c.key (PObject.CreateString []), c.AppendInteger 0) := by
      simp only [SetBitCmd.DoCmd, PStore.GetValueByType, habs,
        SetBitCmd.DoCmdBody, List.getD_eq_getElem?_getD, ho, hw]
      rw [if_pos hrange]
    rw [hred]
    exact ⟨hcreated, rfl⟩

/-- The client of the C10 witness: SETBIT k x 1, with an unparseable
offset frame. -/
def clientC10 : Client := (SetBitCmd.DoInitial (mkClient [[], keyK, [120], [49]])).2

theorem claimC10_witness :
    (SetBitCmd.DoCmd emptyStore clientC10).1.dict clientC10.key
        = some { ptype := PType.string, value := PValue.raw [] } ∧
    (SetBitCmd.DoCmd emptyStore clientC10).2.res = CmdRes.invalidInt := by
  exact (claimC10_create_before_validate emptyStore clientC10 rfl).1 (Or.inl rfl)
